import Mathlib

/-!
Shallow embedding of `pytket-qiskit` `src/pytket/extensions/qiskit/backends/aer.py`.

The embedding models, faithfully to the Python source:
* the noise-model characterisation algorithm `_process_noise_model`
  (together with `_map_trivial_noise_model_to_none`,
  `_get_characterisation_of_noise_model` and the architecture selection done in
  `AerBackend.__init__`);
* the default-compilation-pass selection
  (`default_compilation_pass`, `_arch_dependent_default_compilation_pass`,
  `_arch_independent_default_compilation_pass`);
* the result cache of `_AerBaseBackend` (`process_circuits` handle minting and
  `get_result` with its lazy demultiplexing of job results);
* the guards of `get_pauli_expectation_value` / `get_operator_expectation_value`.

Python floats are modelled as rationals, Python dicts as insertion-ordered
association lists (updating an existing key keeps its position, a new key is
appended, exactly as Python dicts behave), Python sets as lists without
duplicates (only membership in them is ever claim-relevant), and raised
exceptions as `Except` errors.
-/

/-- A pytket `Node` on the default register is identified by its integer index. -/
abbrev Node := Nat

/-- The pytket operation kinds mentioned by the embedded code, plus a catch-all
constructor for the remaining entries of the gate-name translation table. -/
inductive OpType where
  | CX
  | TK1
  | H
  | Rz
  | U1
  | U2
  | U3
  | PauliX
  | Measure
  | Reset
  | Barrier
  | other (name : String)
deriving DecidableEq

/-- Modelled from the spec: the gate-name-to-operation-kind translation table
`_gate_str_2_optype` lives in the conversion glue module
(`pytket/extensions/qiskit/qiskit_convert.py`), which is outside the provided
source; the spec treats operation kinds as opaque identifiers attached to error
records, so the table is modelled as a total injective-on-known-names lookup. -/
def _gate_str_2_optype (s : String) : OpType :=
  if s = "cx" then .CX
  else if s = "h" then .H
  else if s = "rz" then .Rz
  else if s = "u1" then .U1
  else if s = "u2" then .U2
  else if s = "u3" then .U3
  else if s = "x" then .PauliX
  else if s = "measure" then .Measure
  else if s = "reset" then .Reset
  else .other s

/-- Association-list lookup (Python `dict[k]`, returning `none` for a missing
key rather than raising `KeyError`; each use site handles absence as the Python
code does). -/
def alookup {α β : Type} [DecidableEq α] : List (α × β) → α → Option β
  | [], _ => none
  | (b, v) :: rest, a => if b = a then some v else alookup rest a

/-- Inner per-key error dictionary: operation kind to infidelity. -/
abbrev InnerMap := List (OpType × ℚ)

/-- Python `dict.update({k: v})` on an insertion-ordered dictionary: an existing
key keeps its position and gets the new value, a missing key is appended. -/
def updateInner : InnerMap → OpType → ℚ → InnerMap
  | [], k, v => [(k, v)]
  | (k0, v0) :: rest, k, v =>
    if k0 = k then (k, v) :: rest else (k0, v0) :: updateInner rest k v

/-- `defaultdict(dict)` update: `m[a].update({k: v})`.  An existing outer key is
updated in place, a missing outer key is appended with a fresh inner dict. -/
def updateMap {α : Type} [DecidableEq α] :
    List (α × InnerMap) → α → OpType → ℚ → List (α × InnerMap)
  | [], a, k, v => [(a, [(k, v)])]
  | (b, inner) :: rest, a, k, v =>
    if b = a then (b, updateInner inner k v) :: rest
    else (b, inner) :: updateMap rest a k v

/-- Combined two-level lookup `m[a][k]`. -/
def lookup2 {α : Type} [DecidableEq α] (m : List (α × InnerMap)) (a : α) (k : OpType) :
    Option ℚ :=
  match alookup m a with
  | none => none
  | some inner => alookup inner k

/-- Plain `dict` assignment `m[a] = v` (overwrite or append). -/
def setAssoc {α β : Type} [DecidableEq α] : List (α × β) → α → β → List (α × β)
  | [], a, v => [(a, v)]
  | (b, w) :: rest, a, v =>
    if b = a then (a, v) :: rest else (b, w) :: setAssoc rest a v

/-- `defaultdict(list)` append: `m[a].append(x)`. -/
def appendLog {α β : Type} [DecidableEq α] : List (α × List β) → α → β → List (α × List β)
  | [], a, x => [(a, [x])]
  | (b, l) :: rest, a, x =>
    if b = a then (b, l ++ [x]) :: rest else (b, l) :: appendLog rest a x

/-- Python `set.add`: membership-preserving insert (set iteration order is
immaterial to every claim; insertion order is used here). -/
def sinsert {α : Type} [DecidableEq α] (s : List α) (a : α) : List α :=
  if a ∈ s then s else s ++ [a]

/-- The `probabilities` field of a raw qiskit-aer error dictionary: a flat
probability list for a quantum error, a confusion matrix for a readout error. -/
inductive AerProbs where
  | qe (ps : List ℚ)
  | ro (m : List (List ℚ))
deriving DecidableEq

/-- One entry of `noise_model.to_dict()["errors"]`, with the fields read by
`_process_noise_model`.  `gate_qubits = none` models a dictionary lacking the
`gate_qubits` key (an all-qubit error); `instructions` is the opaque payload
forwarded verbatim into the generic error logs. -/
structure AerError where
  etype : String
  operations : List String
  gate_qubits : Option (List (List Node))
  probabilities : AerProbs
  instructions : List String
deriving DecidableEq

/-- A qiskit-aer `NoiseModel`, through the only view the embedded code takes of
it: `to_dict()`, whose sole key is `"errors"`. -/
structure NoiseModel where
  errors : List AerError
deriving DecidableEq

/-- The failures `_process_noise_model` can raise.  `multiOperation` and
`missingGateQubits` are the two `raise RuntimeWarning` statements guarding
malformed events (the spec's `MalformedNoiseModel`); `badErrorType` is the
unreachable third `raise` (the event list is pre-filtered to the two error
types); `badProbabilities` models the Python `IndexError`/`TypeError` that
`error["probabilities"][0]` arithmetic raises on an ill-shaped probability
field; `assertionFailed` models the `assert OpType.CX in gate_set`. -/
inductive MalformedNoiseModel where
  | multiOperation
  | missingGateQubits
  | badErrorType
  | badProbabilities
  | assertionFailed
deriving DecidableEq

/-- The mutable accumulation state of the event loop in `_process_noise_model`. -/
structure CharState where
  node_errors : List (Node × InnerMap)
  link_errors : List ((Node × Node) × InnerMap)
  readout_errors : List (Node × List (List ℚ))
  generic_single_qerrors : List (Node × List (List String × AerProbs))
  generic_2q_qerrors : List ((Node × Node) × List (List String × AerProbs))
  qubits_set : List Node
  qubits_with_link_errors : List Node
  coupling_map : List (Node × Node)
deriving DecidableEq

def initCharState : CharState :=
  { node_errors := []
    link_errors := []
    readout_errors := []
    generic_single_qerrors := []
    generic_2q_qerrors := []
    qubits_set := []
    qubits_with_link_errors := []
    coupling_map := [] }

/-- `error["probabilities"][0]` used as a number (`gate_fid`): defined exactly
when the field is a nonempty flat probability list; `none` marks the inputs on
which the Python expression `1 - gate_fid` would raise. -/
def gateFid : AerProbs → Option ℚ
  | .qe (p :: _) => some p
  | _ => none

/-- The body of the event loop of `_process_noise_model` for a single error
dictionary, mirroring the source line by line: the multi-operation and
missing-`gate_qubits` checks, then dispatch on the arity of
`error["gate_qubits"][0]`.  Note that the source has no branch for arities
other than 1 and 2: such events leave the state untouched. -/
def processError (s : CharState) (e : AerError) : Except MalformedNoiseModel CharState :=
  if e.operations.length > 1 then .error .multiOperation
  else
    match e.gate_qubits with
    | none => .error .missingGateQubits
    | some gq =>
      let name := e.operations.headD ""
      match gq.headD [] with
      | [q] =>
        let optype := _gate_str_2_optype name
        let s1 := { s with qubits_set := sinsert s.qubits_set q }
        if e.etype = "qerror" then
          match gateFid e.probabilities with
          | none => .error .badProbabilities
          | some f =>
            .ok { s1 with
                  node_errors := updateMap s1.node_errors q optype (1 - f)
                  generic_single_qerrors :=
                    appendLog s1.generic_single_qerrors q (e.instructions, e.probabilities) }
        else if e.etype = "roerror" then
          match e.probabilities with
          | .ro m => .ok { s1 with readout_errors := setAssoc s1.readout_errors q m }
          | .qe _ => .error .badProbabilities
        else .error .badErrorType
      | [q0, q1] =>
        let optype := _gate_str_2_optype name
        match gateFid e.probabilities with
        | none => .error .badProbabilities
        | some f =>
          let le1 := updateMap s.link_errors (q0, q1) optype (1 - f)
          let lw := sinsert (sinsert s.qubits_with_link_errors q0) q1
          let le2 := updateMap le1 (q1, q0) optype (1 - f * f)
          .ok { s with
                link_errors := le2
                qubits_with_link_errors := lw
                generic_2q_qerrors :=
                  appendLog s.generic_2q_qerrors (q0, q1) (e.instructions, e.probabilities)
                coupling_map := s.coupling_map ++ [(q0, q1)] }
      | _ => .ok s

/-- The event loop: fold `processError` over the filtered error list,
propagating the first raised exception. -/
def processErrors : List AerError → CharState → Except MalformedNoiseModel CharState
  | [], s => .ok s
  | e :: es, s =>
    match processError s e with
    | .error err => .error err
    | .ok s1 => processErrors es s1

/-- The pre-filter on `noise_model.to_dict()["errors"]`: keep quantum and
readout errors only. -/
def keptErrors (nm : NoiseModel) : List AerError :=
  nm.errors.filter (fun e => e.etype = "qerror" || e.etype = "roerror")

/-- The free-qubit completion loops: bidirectional pairs between every free
qubit and every link-constrained qubit, then `itertools.permutations(free, 2)`
(all ordered pairs of distinct free qubits). -/
def freeCompletion (free linked : List Node) : List (Node × Node) :=
  free.flatMap (fun q => linked.flatMap (fun lq => [(q, lq), (lq, q)]))
    ++ free.flatMap (fun a => (free.filter (fun b => decide (b ≠ a))).map (fun b => (a, b)))

/-- `sum(v.values()) / len(v)` for one inner error dictionary. -/
def averageInner (m : InnerMap) : ℚ := (m.map Prod.snd).sum / m.length

/-- `{k: sum(v.values()) / len(v) for k, v in m.items()}`. -/
def averagedMap {α : Type} (m : List (α × InnerMap)) : List (α × ℚ) :=
  m.map (fun p => (p.1, averageInner p.2))

/-- Matrix entry `m[i][j]` (the claims only read well-formed 2-by-2 matrices). -/
def matEntry (m : List (List ℚ)) (i j : Nat) : ℚ := (m.getD i []).getD j 0

/-- `{k: (v[0][1] + v[1][0]) / 2.0 for k, v in readout_errors.items()}`. -/
def averagedReadout (m : List (Node × List (List ℚ))) : List (Node × ℚ) :=
  m.map (fun p => (p.1, (matEntry p.2 0 1 + matEntry p.2 1 0) / 2))

/-- pytket `Architecture`, through the views the embedded code takes of it: the
coupling list it is built from and its derived node set. -/
structure Architecture where
  coupling : List (Node × Node)
deriving DecidableEq

/-- `Architecture.nodes`: the qubits mentioned by the coupling list. -/
def Architecture.nodes (a : Architecture) : List Node :=
  (a.coupling.flatMap (fun p => [p.1, p.2])).dedup

/-- The two generic pass-through error logs assembled at the end of
`_process_noise_model`. -/
structure GenericQErrors where
  one_qubit : List (Node × List (List String × AerProbs))
  two_qubit : List ((Node × Node) × List (List String × AerProbs))
deriving DecidableEq

/-- `NoiseModelCharacterisation` (aer.py, `@dataclass`): every optional field
defaults to `none`, exactly as in the source. -/
structure NoiseModelCharacterisation where
  architecture : Architecture
  node_errors : Option (List (Node × InnerMap)) := none
  edge_errors : Option (List ((Node × Node) × InnerMap)) := none
  readout_errors : Option (List (Node × List (List ℚ))) := none
  averaged_node_errors : Option (List (Node × ℚ)) := none
  averaged_edge_errors : Option (List ((Node × Node) × ℚ)) := none
  averaged_readout_errors : Option (List (Node × ℚ)) := none
  generic_q_errors : Option GenericQErrors := none
deriving DecidableEq

/-- `_process_noise_model(noise_model, gate_set)`: the `assert OpType.CX in
gate_set`, the event loop, the free-qubit completion and the assembly of the
characterisation. -/
def _process_noise_model (nm : NoiseModel) (gate_set : List OpType) :
    Except MalformedNoiseModel NoiseModelCharacterisation :=
  if OpType.CX ∈ gate_set then
    match processErrors (keptErrors nm) initCharState with
    | .error err => .error err
    | .ok s =>
      let free := s.qubits_set.filter (fun q => decide (q ∉ s.qubits_with_link_errors))
      let coupling := s.coupling_map ++ freeCompletion free s.qubits_with_link_errors
      .ok
        { architecture := ⟨coupling⟩
          node_errors := some s.node_errors
          edge_errors := some s.link_errors
          readout_errors := some s.readout_errors
          averaged_node_errors := some (averagedMap s.node_errors)
          averaged_edge_errors := some (averagedMap s.link_errors)
          averaged_readout_errors := some (averagedReadout s.readout_errors)
          generic_q_errors := some ⟨s.generic_single_qerrors, s.generic_2q_qerrors⟩ }
  else .error .assertionFailed

/-- `_map_trivial_noise_model_to_none`: a present noise model all of whose
`to_dict()` values are empty lists (its only key is `"errors"`) is mapped to
`None`.  A qiskit-aer `NoiseModel` object is truthy, so `if noise_model and
all(...)` tests exactly presence plus triviality. -/
def _map_trivial_noise_model_to_none (nm : Option NoiseModel) : Option NoiseModel :=
  match nm with
  | some m => if [m.errors].all (fun v => v.isEmpty) then none else some m
  | none => none

/-- `_get_characterisation_of_noise_model`: `None` yields the characterisation
with an empty architecture and every optional field absent. -/
def _get_characterisation_of_noise_model (nm : Option NoiseModel) (gate_set : List OpType) :
    Except MalformedNoiseModel NoiseModelCharacterisation :=
  match nm with
  | none => .ok { architecture := ⟨[]⟩ }
  | some m => _process_noise_model m gate_set

/-- The architecture stored in `BackendInfo`: either the characterised coupling
graph or the `FullyConnected(n_qubits)` fallback. -/
inductive BackendArchitecture where
  | arch (a : Architecture)
  | fullyConnected (n_qubits : Nat)
deriving DecidableEq

/-- The architecture selection performed by `AerBackend.__init__` (no crosstalk
parameters): map a trivial noise model to `None`, characterise, set
`_has_arch = bool(architecture) and bool(architecture.nodes)` (an
`Architecture` object is truthy, so this is non-emptiness of its node set) and
fall back to `FullyConnected(n_qubits)` when there is no architecture. -/
def aerBackendArchitecture (noise_model : Option NoiseModel) (gate_set : List OpType)
    (n_qubits : Nat) : Except MalformedNoiseModel BackendArchitecture :=
  let nm := _map_trivial_noise_model_to_none noise_model
  match _get_characterisation_of_noise_model nm gate_set with
  | .error err => .error err
  | .ok ch =>
    if ch.architecture.nodes.isEmpty then .ok (.fullyConnected n_qubits)
    else .ok (.arch ch.architecture)

/-- The transformation stage identifiers appearing in the default compilation
pass sequences of `_AerBaseBackend`.  `rebaseBackend` is `self.rebase_pass()`
(an `AutoRebase` to the backend gate set); `lightsabre` is the
`CustomPass(_gen_lightsabre_transformation(arch))` routing-and-placement stage,
carrying the architecture it is built from. -/
inductive StageId where
  | decomposeBoxes
  | rebaseBackend
  | autoRebaseCxTk1
  | autoRebaseCxHRz
  | lightsabre (arch : Architecture)
  | synthesiseTket
  | fullPeepholeOptimise
  | cliffordSimp (allow_swaps : Bool)
  | removeBarriers
  | greedyPauliSimp (timeout : Nat)
deriving DecidableEq

/-- `arch_specific_passes`: the rebase-to-CX/TK1 stage followed by the
LightSABRE routing/placement stage. -/
def archSpecificPasses (arch : Architecture) : List StageId :=
  [.autoRebaseCxTk1, .lightsabre arch]

/-- `_arch_dependent_default_compilation_pass` (the `assert optimisation_level
in range(4)` restricts callers to levels 0..3; the final `return` of the source
is the fall-through branch). -/
def _arch_dependent_default_compilation_pass (arch : Architecture)
    (optimisation_level : Nat) (timeout : Nat) : List StageId :=
  if optimisation_level = 0 then
    [.decomposeBoxes, .rebaseBackend] ++ archSpecificPasses arch ++ [.rebaseBackend]
  else if optimisation_level = 1 then
    [.decomposeBoxes, .synthesiseTket] ++ archSpecificPasses arch ++ [.synthesiseTket]
  else if optimisation_level = 2 then
    [.decomposeBoxes, .fullPeepholeOptimise] ++ archSpecificPasses arch
      ++ [.cliffordSimp false, .synthesiseTket]
  else
    [.decomposeBoxes, .removeBarriers, .autoRebaseCxHRz, .greedyPauliSimp timeout]
      ++ archSpecificPasses arch ++ [.synthesiseTket]

/-- `_arch_independent_default_compilation_pass`. -/
def _arch_independent_default_compilation_pass (optimisation_level : Nat)
    (timeout : Nat) : List StageId :=
  if optimisation_level = 0 then [.decomposeBoxes, .rebaseBackend]
  else if optimisation_level = 1 then [.decomposeBoxes, .synthesiseTket]
  else if optimisation_level = 2 then [.decomposeBoxes, .fullPeepholeOptimise]
  else [.decomposeBoxes, .removeBarriers, .autoRebaseCxHRz, .greedyPauliSimp timeout]

/-- `default_compilation_pass`: the architecture-dependent sequence exactly when
`self._has_arch and arch.coupling` holds. -/
def default_compilation_pass (has_arch : Bool) (arch : Architecture)
    (optimisation_level : Nat) (timeout : Nat) : List StageId :=
  if has_arch = true ∧ arch.coupling ≠ [] then
    _arch_dependent_default_compilation_pass arch optimisation_level timeout
  else _arch_independent_default_compilation_pass optimisation_level timeout

/-- Identifies the routing/placement stage. -/
def isRoutingStage : StageId → Bool
  | .lightsabre _ => true
  | _ => false

/-- Identifies the rebasing / re-synthesis stages that close each default
compilation sequence (`self.rebase_pass()` and `SynthesiseTket`). -/
def isRebaseOrSynthStage : StageId → Bool
  | .rebaseBackend => true
  | .synthesiseTket => true
  | _ => false

/-- An opaque demultiplexed per-circuit result (`BackendResult`); distinct
payloads model distinguishable results. -/
abbrev BRes := Nat

/-- `ResultHandle(jobid, i, qubit_count, ppcirc_str)` as minted by
`process_circuits`. -/
structure ResultHandle where
  jobId : String
  pos : Nat
  qubits : Nat
  ppc : String
deriving DecidableEq

/-- One `self._cache[handle]` entry: the job reference (modelled by the job id
it answers to) and the lazily filled result.  The `result` field being `none`
models the `"result"` key being absent from the entry dictionary. -/
structure CacheEntry where
  job : String
  result : Option BRes := none
deriving DecidableEq

/-- The handle-keyed result cache (`Backend._cache`, a plain `dict`). -/
abbrev ResultCache := List (ResultHandle × CacheEntry)

/-- `self._cache[handle]` read. -/
def cacheLookup (c : ResultCache) (h : ResultHandle) : Option CacheEntry := alookup c h

/-- `self._cache[handle] = entry` (insert or overwrite). -/
def cacheInsert : ResultCache → ResultHandle → CacheEntry → ResultCache
  | [], h, e => [(h, e)]
  | (h0, e0) :: rest, h, e =>
    if h0 = h then (h, e) :: rest else (h0, e0) :: cacheInsert rest h e

/-- `self._cache[k]["result"] = br` on a plain `dict`: `none` models the
`KeyError` raised when `k` has no cache entry. -/
def cacheSetResult (c : ResultCache) (h : ResultHandle) (br : BRes) : Option ResultCache :=
  match c with
  | [] => none
  | (h0, e0) :: rest =>
    if h0 = h then some ((h0, { e0 with result := some br }) :: rest)
    else
      match cacheSetResult rest h br with
      | none => none
      | some rest1 => some ((h0, e0) :: rest1)

/-- The handle-minting loop of `process_circuits` for one batch: circuit `i` of
the job gets handle `(jobid, i, qubit_count[i], ppcirc_str[i])` and a pending
cache entry `{"job": job}` (no `"result"` key yet).  With `postprocess` off
every `ppcirc_str` is `"null"` (`json.dumps(None)`). -/
def submitBatch (jobid : String) (qubitCounts : List Nat) (ppcStrs : List String)
    (cache : ResultCache) : List ResultHandle × ResultCache :=
  let handles := (List.range qubitCounts.length).map
    (fun i => ResultHandle.mk jobid i (qubitCounts.getD i 0) (ppcStrs.getD i ""))
  (handles, handles.foldl (fun c h => cacheInsert c h { job := jobid }) cache)

/-- How `get_result` can fail: `circuitNotRun` is `CircuitNotRunError` (raised
by the base-class lookup for an unknown handle, and re-raised when the cache
entry lacks a `"job"` key); `keyError` is the uncaught Python `KeyError` from
`self._cache[k]["result"] = backres` on a key with no cache entry. -/
inductive GetResultError where
  | circuitNotRun
  | keyError
deriving DecidableEq

/-- The demultiplexing loop of `get_result`: `for circ_index, backres in
enumerate(backresults): self._cache[ResultHandle(jobid, circ_index, qubit_n,
ppc)]["result"] = backres`, where `qubit_n` and `ppc` are the fields of the
**requested** handle, reused for every circuit position.  The cache is mutated
in place, so when a write raises `KeyError` the earlier writes persist: the
loop returns the cache so far together with a success flag. -/
def demuxResults (c : ResultCache) (jobid : String) (qubit_n : Nat) (ppc : String) :
    List BRes → Nat → ResultCache × Bool
  | [], _ => (c, true)
  | br :: rest, i =>
    match cacheSetResult c (ResultHandle.mk jobid i qubit_n ppc) br with
    | none => (c, false)
    | some c1 => demuxResults c1 jobid qubit_n ppc rest (i + 1)

/-- `_AerBaseBackend.get_result`.  The external engine is a function from job id
to the demultiplexed result bundle (`job.result()` piped through
`qiskit_result_to_backendresult`, one entry per circuit of the job).  The call
returns the outcome (result or escaped exception), the cache as mutated by the
call, and the number of external `result()` fetches it performed (0 on a cache
hit, 1 otherwise).  The base-class `super().get_result` returns the cached
result when the entry has one and raises `CircuitNotRunError` otherwise; the
handler then re-raises `CircuitNotRunError` when the handle has no cache entry
at all, and otherwise fetches, demultiplexes and returns
`self._cache[handle]["result"]`. -/
def get_result (engine : String → List BRes) (c : ResultCache) (h : ResultHandle) :
    (Except GetResultError BRes) × ResultCache × Nat :=
  match cacheLookup c h with
  | none => (.error .circuitNotRun, c, 0)
  | some entry =>
    match entry.result with
    | some r => (.ok r, c, 0)
    | none =>
      let backresults := engine h.jobId
      match demuxResults c h.jobId h.qubits h.ppc backresults 0 with
      | (c1, false) => (.error .keyError, c1, 1)
      | (c1, true) =>
        match cacheLookup c1 h with
        | none => (.error .keyError, c1, 1)
        | some entry1 =>
          match entry1.result with
          | none => (.error .keyError, c1, 1)
          | some r => (.ok r, c1, 1)

/-- The fields of `_AerBaseBackend` read by the expectation-value guards. -/
structure AerExpectationState where
  noise_model : Option NoiseModel
  supports_expectation : Bool
deriving DecidableEq

/-- The exceptions of the expectation-value queries: the `RuntimeError` raised
under an active noise model and the `NotImplementedError` raised on a backend
without expectation support. -/
inductive ExpectationError where
  | noiseModelUnsupported
  | notImplemented
deriving DecidableEq

/-- `get_pauli_expectation_value`: the two guards precede any job submission;
`runSnapshotJob` stands for the snapshot job round-trip and the second
component counts the jobs submitted by the call. -/
def get_pauli_expectation_value (st : AerExpectationState) (runSnapshotJob : Unit → ℚ) :
    (Except ExpectationError ℚ) × Nat :=
  if st.noise_model.isSome then (.error .noiseModelUnsupported, 0)
  else if st.supports_expectation = false then (.error .notImplemented, 0)
  else (.ok (runSnapshotJob ()), 1)

/-- `get_operator_expectation_value`: identical guards ahead of the snapshot
job. -/
def get_operator_expectation_value (st : AerExpectationState) (runSnapshotJob : Unit → ℚ) :
    (Except ExpectationError ℚ) × Nat :=
  if st.noise_model.isSome then (.error .noiseModelUnsupported, 0)
  else if st.supports_expectation = false then (.error .notImplemented, 0)
  else (.ok (runSnapshotJob ()), 1)

/-- The explicit target-qubit sequence of an error event
(`error["gate_qubits"][0]`; empty when the key is missing). -/
def eTargets (e : AerError) : List Node :=
  match e.gate_qubits with
  | some gq => gq.headD []
  | none => []

/-- The target of an arity-1 event. -/
def eArity1Target (e : AerError) : Option Node :=
  match eTargets e with
  | [q] => some q
  | _ => none

/-- The ordered target pair of an arity-2 event. -/
def eArity2Target (e : AerError) : Option (Node × Node) :=
  match eTargets e with
  | [q0, q1] => some (q0, q1)
  | _ => none

/-- `q` is the target of some arity-1 event of the list. -/
abbrev appears1 (es : List AerError) (q : Node) : Prop :=
  ∃ e ∈ es, eArity1Target e = some q

/-- `q` occurs in the target pair of some arity-2 event of the list. -/
abbrev appears2 (es : List AerError) (q : Node) : Prop :=
  ∃ e ∈ es, ∃ p, eArity2Target e = some p ∧ (q = p.1 ∨ q = p.2)

/-- The directed pairs the two-qubit error events themselves contribute to the
coupling list (one forward pair per arity-2 event, in event order). -/
def couplingContribution (nm : NoiseModel) : List (Node × Node) :=
  (keptErrors nm).filterMap eArity2Target

/-- The key list of an outer error dictionary. -/
def mapKeys {α : Type} (m : List (α × InnerMap)) : List α := m.map Prod.fst

/-- `q` is free for a noise model: target of an arity-1 event but of no arity-2
event (the glossary's free qubit, restricted as the code computes it). -/
abbrev isFreeQ (nm : NoiseModel) (q : Node) : Prop :=
  appears1 (keptErrors nm) q ∧ ¬ appears2 (keptErrors nm) q

/-- A gate set containing `CX` (the characterisation asserts its presence). -/
def gs0 : List OpType := [OpType.CX, OpType.U3, OpType.Measure]

/-- A two-qubit `cx` error on `(0, 1)` with first probability `0.99`. -/
def cx01err : AerError :=
  { etype := "qerror", operations := ["cx"], gate_qubits := some [[0, 1]]
    probabilities := .qe [99/100, 1/100], instructions := ["cx-instr"] }

/-- A two-qubit `cx` error on `(0, 1)` with first probability `0.9`. -/
def cx01err9 : AerError :=
  { etype := "qerror", operations := ["cx"], gate_qubits := some [[0, 1]]
    probabilities := .qe [9/10, 1/10], instructions := ["cx-instr"] }

/-- A two-qubit `cx` error on the reversed pair `(1, 0)` with first
probability `0.9`. -/
def cx10err9 : AerError :=
  { etype := "qerror", operations := ["cx"], gate_qubits := some [[1, 0]]
    probabilities := .qe [9/10, 1/10], instructions := ["cx-instr"] }

/-- A three-qubit quantum error on `(0, 1, 2)` (unsupported arity). -/
def ccx012err : AerError :=
  { etype := "qerror", operations := ["ccx"], gate_qubits := some [[0, 1, 2]]
    probabilities := .qe [9/10, 1/10], instructions := ["ccx-instr"] }

/-- A single-qubit `u3` error on qubit `5` with first probability `0.9`. -/
def u3on5err : AerError :=
  { etype := "qerror", operations := ["u3"], gate_qubits := some [[5]]
    probabilities := .qe [9/10, 1/10], instructions := ["u3-instr"] }

/-- A single-qubit `u3` error on qubit `7` with first probability `0.8`. -/
def u3on7err : AerError :=
  { etype := "qerror", operations := ["u3"], gate_qubits := some [[7]]
    probabilities := .qe [4/5, 1/5], instructions := ["u3-instr"] }

/-- An event built by `add_all_qubit_quantum_error` (no `gate_qubits` key). -/
def allQubitErr : AerError :=
  { etype := "qerror", operations := ["u3"], gate_qubits := none
    probabilities := .qe [9/10, 1/10], instructions := ["u3-instr"] }

/-- An event whose `operations` names two gates. -/
def multiOpErr : AerError :=
  { etype := "qerror", operations := ["u3", "cx"], gate_qubits := some [[4]]
    probabilities := .qe [9/10, 1/10], instructions := ["multi-instr"] }

/-- The external engine for the `get_result` scenarios: every job demultiplexes
into the two distinguishable per-circuit results `10` and `20`. -/
def engineJ : String → List BRes := fun _ => [10, 20]

/-- The two handles minted for a one-job batch of two circuits with **distinct**
qubit counts 1 and 2 (batching groups by shot count only, so such a job is
reachable) and the pending cache after submission. -/
def hetHandle0 : ResultHandle := { jobId := "job0", pos := 0, qubits := 1, ppc := "null" }

def hetHandle1 : ResultHandle := { jobId := "job0", pos := 1, qubits := 2, ppc := "null" }

def hetCache : ResultCache := (submitBatch "job0" [1, 2] ["null", "null"] []).2

/-- The two handles minted for a one-job batch of two circuits that share the
qubit count 2, and the pending cache after submission. -/
def homHandle0 : ResultHandle := { jobId := "job1", pos := 0, qubits := 2, ppc := "null" }

def homHandle1 : ResultHandle := { jobId := "job1", pos := 1, qubits := 2, ppc := "null" }

def homCache : ResultCache := (submitBatch "job1" [2, 2] ["null", "null"] []).2

theorem mem_sinsert {α : Type} [DecidableEq α] (s : List α) (a b : α) :
    b ∈ sinsert s a ↔ b ∈ s ∨ b = a := by
  unfold sinsert
  by_cases h : a ∈ s
  · simp only [if_pos h]
    constructor
    · exact fun hb => Or.inl hb
    · rintro (hb | rfl)
      · exact hb
      · exact h
  · simp [if_neg h]

theorem alookup_updateInner_self (m : InnerMap) (k : OpType) (v : ℚ) :
    alookup (updateInner m k v) k = some v := by
  induction m with
  | nil => simp [updateInner, alookup]
  | cons p rest ih =>
    obtain ⟨k0, v0⟩ := p
    by_cases h : k0 = k
    · simp [updateInner, h, alookup]
    · simp [updateInner, h, alookup, ih]

theorem alookup_updateInner_other (m : InnerMap) (k k' : OpType) (v : ℚ) (h : k' ≠ k) :
    alookup (updateInner m k v) k' = alookup m k' := by
  have hkk : ¬ k = k' := fun hc => h hc.symm
  induction m with
  | nil => simp only [updateInner, alookup, if_neg hkk]
  | cons p rest ih =>
    obtain ⟨k0, v0⟩ := p
    by_cases hk : k0 = k
    · subst hk
      simp only [updateInner, if_pos rfl, alookup, if_neg hkk]
    · by_cases hk2 : k0 = k'
      · simp only [updateInner, if_neg hk, alookup, if_pos hk2]
      · simp only [updateInner, if_neg hk, alookup, if_neg hk2]
        exact ih

theorem lookup2_updateMap_self {α : Type} [DecidableEq α]
    (m : List (α × InnerMap)) (a : α) (k : OpType) (v : ℚ) :
    lookup2 (updateMap m a k v) a k = some v := by
  induction m with
  | nil => simp [updateMap, lookup2, alookup, alookup_updateInner_self]
  | cons p rest ih =>
    obtain ⟨b, inner⟩ := p
    by_cases h : b = a
    · simp [updateMap, h, lookup2, alookup, alookup_updateInner_self]
    · simpa [updateMap, h, lookup2, alookup] using ih

theorem lookup2_updateMap_other {α : Type} [DecidableEq α]
    (m : List (α × InnerMap)) (a b : α) (k k' : OpType) (v : ℚ) (h : b ≠ a) :
    lookup2 (updateMap m a k v) b k' = lookup2 m b k' := by
  have hab : ¬ a = b := fun hc => h hc.symm
  induction m with
  | nil => simp only [updateMap, lookup2, alookup, if_neg hab]
  | cons p rest ih =>
    obtain ⟨b0, inner⟩ := p
    by_cases hb : b0 = a
    · subst hb
      simp only [updateMap, if_pos rfl, lookup2, alookup, if_neg hab]
    · by_cases hb2 : b0 = b
      · simp only [updateMap, if_neg hb, lookup2, alookup, if_pos hb2]
      · simp only [updateMap, if_neg hb, lookup2, alookup, if_neg hb2]
        exact ih

theorem mem_mapKeys_updateMap {α : Type} [DecidableEq α]
    (m : List (α × InnerMap)) (a p : α) (k : OpType) (v : ℚ) :
    p ∈ mapKeys (updateMap m a k v) ↔ p ∈ mapKeys m ∨ p = a := by
  induction m with
  | nil => simp [updateMap, mapKeys]
  | cons q rest ih =>
    obtain ⟨b, inner⟩ := q
    by_cases h : b = a
    · subst h
      have hu : updateMap ((b, inner) :: rest) b k v
          = (b, updateInner inner k v) :: rest := by
        simp only [updateMap, eq_self_iff_true, if_true, ite_true]
      rw [hu]
      simp only [mapKeys, List.map_cons, List.mem_cons]
      tauto
    · have hu : updateMap ((b, inner) :: rest) a k v
          = (b, inner) :: updateMap rest a k v := by
        simp only [updateMap, if_neg h]
      rw [hu]
      simp only [mapKeys, List.map_cons, List.mem_cons]
      have ih2 : p ∈ List.map Prod.fst (updateMap rest a k v)
          ↔ p ∈ List.map Prod.fst rest ∨ p = a := ih
      rw [ih2]
      tauto

theorem mem_freeCompletion (free linked : List Node) (a b : Node) :
    (a, b) ∈ freeCompletion free linked ↔
      (a ∈ free ∧ b ∈ linked) ∨ (b ∈ free ∧ a ∈ linked) ∨
        (a ∈ free ∧ b ∈ free ∧ b ≠ a) := by
  unfold freeCompletion
  simp only [List.mem_append, List.mem_flatMap, List.mem_map, List.mem_filter,
    List.mem_cons, List.not_mem_nil, or_false, decide_eq_true_eq, Prod.mk.injEq]
  constructor
  · rintro (⟨q, hq, lq, hlq, ⟨rfl, rfl⟩ | ⟨rfl, rfl⟩⟩ | ⟨x, hx, y, ⟨hy, hne⟩, rfl, rfl⟩)
    · exact Or.inl ⟨hq, hlq⟩
    · exact Or.inr (Or.inl ⟨hq, hlq⟩)
    · exact Or.inr (Or.inr ⟨hx, hy, hne⟩)
  · rintro (⟨ha, hb⟩ | ⟨hb, ha⟩ | ⟨ha, hb, hne⟩)
    · exact Or.inl ⟨a, ha, b, hb, Or.inl ⟨rfl, rfl⟩⟩
    · exact Or.inl ⟨b, hb, a, ha, Or.inr ⟨rfl, rfl⟩⟩
    · exact Or.inr ⟨a, ha, b, ⟨hb, hne⟩, rfl, rfl⟩

theorem processError_multiOp (s : CharState) (e : AerError)
    (h : e.operations.length > 1) :
    processError s e = .error .multiOperation := by
  unfold processError
  rw [if_pos h]

theorem processError_noGateQubits (s : CharState) (e : AerError)
    (h1 : ¬ e.operations.length > 1) (h2 : e.gate_qubits = none) :
    processError s e = .error .missingGateQubits := by
  unfold processError
  rw [if_neg h1, h2]

theorem processError_otherArity (s : CharState) (e : AerError) (gq : List (List Node))
    (h1 : ¬ e.operations.length > 1) (h2 : e.gate_qubits = some gq)
    (h3 : (gq.headD []).length ≠ 1) (h4 : (gq.headD []).length ≠ 2) :
    processError s e = .ok s := by
  unfold processError
  rw [if_neg h1, h2]
  dsimp only
  rcases hts : gq.headD [] with _ | ⟨q, _ | ⟨q1, _ | ⟨q2, ts⟩⟩⟩
  · rfl
  · exact absurd (by rw [hts]; rfl : (gq.headD []).length = 1) h3
  · exact absurd (by rw [hts]; rfl : (gq.headD []).length = 2) h4
  · rfl

theorem processError_arity2 (s : CharState) (e : AerError) (gq : List (List Node))
    (q0 q1 : Node) (f : ℚ) (ps : List ℚ)
    (h1 : ¬ e.operations.length > 1) (h2 : e.gate_qubits = some gq)
    (h3 : gq.headD [] = [q0, q1]) (h5 : e.probabilities = .qe (f :: ps)) :
    processError s e =
      .ok { s with
            link_errors := updateMap
              (updateMap s.link_errors (q0, q1)
                (_gate_str_2_optype (e.operations.headD "")) (1 - f))
              (q1, q0) (_gate_str_2_optype (e.operations.headD "")) (1 - f * f)
            qubits_with_link_errors :=
              sinsert (sinsert s.qubits_with_link_errors q0) q1
            generic_2q_qerrors := appendLog s.generic_2q_qerrors (q0, q1)
              (e.instructions, e.probabilities)
            coupling_map := s.coupling_map ++ [(q0, q1)] } := by
  unfold processError
  rw [if_neg h1, h2]
  dsimp only
  rw [h3, h5]
  rfl

theorem processError_ok_inv (s s1 : CharState) (e : AerError)
    (h : processError s e = .ok s1) :
    (∀ q, q ∈ s1.qubits_set ↔ q ∈ s.qubits_set ∨ eArity1Target e = some q) ∧
    (∀ q, q ∈ s1.qubits_with_link_errors ↔ q ∈ s.qubits_with_link_errors ∨
        ∃ p, eArity2Target e = some p ∧ (q = p.1 ∨ q = p.2)) ∧
    s1.coupling_map = s.coupling_map ++ (eArity2Target e).toList ∧
    (∀ p, p ∈ mapKeys s1.link_errors ↔ p ∈ mapKeys s.link_errors ∨
        ∃ pr, eArity2Target e = some pr ∧ (p = pr ∨ p = (pr.2, pr.1))) := by
  by_cases h1 : e.operations.length > 1
  · rw [processError_multiOp s e h1] at h
    exact Except.noConfusion h
  cases hgq : e.gate_qubits with
  | none =>
    rw [processError_noGateQubits s e h1 hgq] at h
    exact Except.noConfusion h
  | some gq =>
    have hT : eTargets e = gq.headD [] := by simp [eTargets, hgq]
    unfold processError at h
    rw [if_neg h1, hgq] at h
    dsimp only at h
    rcases hts : gq.headD [] with _ | ⟨q, _ | ⟨qb, _ | ⟨qc, ts⟩⟩⟩ <;> rw [hts] at h <;>
      dsimp only at h
    · -- arity 0: state unchanged
      cases h
      have hA1 : eArity1Target e = none := by
        unfold eArity1Target
        rw [hT, hts]
      have hA2 : eArity2Target e = none := by
        unfold eArity2Target
        rw [hT, hts]
      refine ⟨fun q => by simp [hA1], fun q => by simp [hA2], by simp [hA2],
        fun p => by simp [hA2]⟩
    · -- arity 1
      have hA1 : eArity1Target e = some q := by
        unfold eArity1Target
        rw [hT, hts]
      have hA2 : eArity2Target e = none := by
        unfold eArity2Target
        rw [hT, hts]
      split at h
      · -- qerror branch
        split at h
        · exact Except.noConfusion h
        · cases h
          refine ⟨fun x => by simp [mem_sinsert, hA1, eq_comm], fun x => by simp [hA2],
            by simp [hA2], fun p => by simp [hA2]⟩
      · split at h
        · -- roerror branch
          split at h
          · cases h
            refine ⟨fun x => by simp [mem_sinsert, hA1, eq_comm], fun x => by simp [hA2],
              by simp [hA2], fun p => by simp [hA2]⟩
          · exact Except.noConfusion h
        · exact Except.noConfusion h
    · -- arity 2
      have hA1 : eArity1Target e = none := by
        unfold eArity1Target
        rw [hT, hts]
      have hA2 : eArity2Target e = some (q, qb) := by
        unfold eArity2Target
        rw [hT, hts]
      split at h
      · exact Except.noConfusion h
      · cases h
        refine ⟨fun x => by simp [hA1], ?_, ?_, ?_⟩
        · intro x
          simp only [mem_sinsert, hA2, Option.some.injEq]
          constructor
          · rintro ((hx | rfl) | rfl)
            · exact Or.inl hx
            · exact Or.inr ⟨(x, qb), rfl, Or.inl rfl⟩
            · exact Or.inr ⟨(q, x), rfl, Or.inr rfl⟩
          · rintro (hx | ⟨p, hpe, (rfl | rfl)⟩)
            · exact Or.inl (Or.inl hx)
            · exact Or.inl (Or.inr (congrArg Prod.fst hpe.symm))
            · exact Or.inr (congrArg Prod.snd hpe.symm)
        · simp [hA2, Option.toList]
        · intro p
          simp only [mem_mapKeys_updateMap, hA2, Option.some.injEq]
          constructor
          · rintro ((hp | rfl) | rfl)
            · exact Or.inl hp
            · exact Or.inr ⟨(q, qb), rfl, Or.inl rfl⟩
            · exact Or.inr ⟨(q, qb), rfl, Or.inr rfl⟩
          · rintro (hp | ⟨pr, hpr, (rfl | rfl)⟩)
            · exact Or.inl (Or.inl hp)
            · exact Or.inl (Or.inr hpr.symm)
            · exact Or.inr (by rw [← hpr])
    · -- arity at least 3: state unchanged
      cases h
      have hA1 : eArity1Target e = none := by
        unfold eArity1Target
        rw [hT, hts]
      have hA2 : eArity2Target e = none := by
        unfold eArity2Target
        rw [hT, hts]
      refine ⟨fun q => by simp [hA1], fun q => by simp [hA2], by simp [hA2],
        fun p => by simp [hA2]⟩

theorem appears1_cons (e : AerError) (es : List AerError) (q : Node) :
    appears1 (e :: es) q ↔ eArity1Target e = some q ∨ appears1 es q := by
  simp [appears1]

theorem appears2_cons (e : AerError) (es : List AerError) (q : Node) :
    appears2 (e :: es) q ↔
      (∃ p, eArity2Target e = some p ∧ (q = p.1 ∨ q = p.2)) ∨ appears2 es q := by
  simp [appears2]

theorem processErrors_ok_spec (es : List AerError) (s s' : CharState)
    (h : processErrors es s = .ok s') :
    (∀ q, q ∈ s'.qubits_set ↔ q ∈ s.qubits_set ∨ appears1 es q) ∧
    (∀ q, q ∈ s'.qubits_with_link_errors ↔
        q ∈ s.qubits_with_link_errors ∨ appears2 es q) ∧
    s'.coupling_map = s.coupling_map ++ es.filterMap eArity2Target ∧
    (∀ p, p ∈ mapKeys s'.link_errors ↔ p ∈ mapKeys s.link_errors ∨
        ∃ e ∈ es, ∃ pr, eArity2Target e = some pr ∧ (p = pr ∨ p = (pr.2, pr.1))) := by
  induction es generalizing s with
  | nil =>
    cases h
    refine ⟨fun q => by simp [appears1], fun q => by simp [appears2], by simp,
      fun p => by simp⟩
  | cons e es ih =>
    unfold processErrors at h
    cases he : processError s e with
    | error err => rw [he] at h; exact Except.noConfusion h
    | ok s1 =>
      rw [he] at h
      obtain ⟨ihq, ihl, ihc, ihk⟩ := ih s1 h
      obtain ⟨stq, stl, stc, stk⟩ := processError_ok_inv s s1 e he
      refine ⟨?_, ?_, ?_, ?_⟩
      · intro q
        rw [ihq q, stq q, appears1_cons]
        exact or_assoc
      · intro q
        rw [ihl q, stl q, appears2_cons]
        exact or_assoc
      · rw [ihc, stc]
        cases hA : eArity2Target e <;>
          simp [List.filterMap_cons, hA, Option.toList, List.append_assoc]
      · intro p
        rw [ihk p, stk p]
        constructor
        · rintro ((hp | ⟨pr, hpr, hor⟩) | ⟨e1, he1, pr, hpr, hor⟩)
          · exact Or.inl hp
          · exact Or.inr ⟨e, List.mem_cons_self e es, pr, hpr, hor⟩
          · exact Or.inr ⟨e1, List.mem_cons_of_mem e he1, pr, hpr, hor⟩
        · rintro (hp | ⟨e1, he1, pr, hpr, hor⟩)
          · exact Or.inl (Or.inl hp)
          · rcases List.mem_cons.mp he1 with rfl | he1'
            · exact Or.inl (Or.inr ⟨pr, hpr, hor⟩)
            · exact Or.inr ⟨e1, he1', pr, hpr, hor⟩

theorem process_noise_model_ok_inv (nm : NoiseModel) (gs : List OpType)
    (ch : NoiseModelCharacterisation)
    (h : _process_noise_model nm gs = .ok ch) :
    ∃ s, processErrors (keptErrors nm) initCharState = .ok s ∧
      ch.architecture.coupling = s.coupling_map ++
        freeCompletion
          (s.qubits_set.filter (fun q => decide (q ∉ s.qubits_with_link_errors)))
          s.qubits_with_link_errors ∧
      ch.edge_errors = some s.link_errors := by
  unfold _process_noise_model at h
  split at h
  · cases hs : processErrors (keptErrors nm) initCharState with
    | error err => rw [hs] at h; exact Except.noConfusion h
    | ok s =>
      rw [hs] at h
      dsimp only at h
      cases h
      exact ⟨s, rfl, rfl, rfl⟩
  · exact Except.noConfusion h

theorem coupling_mem_iff (nm : NoiseModel) (gs : List OpType)
    (ch : NoiseModelCharacterisation)
    (h : _process_noise_model nm gs = .ok ch) (a b : Node) :
    (a, b) ∈ ch.architecture.coupling ↔
      (∃ e ∈ keptErrors nm, eArity2Target e = some (a, b)) ∨
      (isFreeQ nm a ∧ appears2 (keptErrors nm) b) ∨
      (isFreeQ nm b ∧ appears2 (keptErrors nm) a) ∨
      (isFreeQ nm a ∧ isFreeQ nm b ∧ b ≠ a) := by
  obtain ⟨s, hs, hcoup, hedge⟩ := process_noise_model_ok_inv nm gs ch h
  obtain ⟨hq, hl, hc, hk⟩ := processErrors_ok_spec (keptErrors nm) initCharState s hs
  have hq' : ∀ x, x ∈ s.qubits_set ↔ appears1 (keptErrors nm) x := by
    intro x
    rw [hq x]
    simp [initCharState]
  have hl' : ∀ x, x ∈ s.qubits_with_link_errors ↔ appears2 (keptErrors nm) x := by
    intro x
    rw [hl x]
    simp [initCharState]
  have hfree : ∀ x,
      (x ∈ s.qubits_set.filter (fun q => decide (q ∉ s.qubits_with_link_errors)))
        ↔ isFreeQ nm x := by
    intro x
    rw [List.mem_filter]
    rw [decide_eq_true_iff]
    rw [hq' x, hl' x]
  rw [hcoup, List.mem_append, hc]
  simp only [initCharState, List.nil_append]
  rw [List.mem_filterMap]
  rw [mem_freeCompletion]
  rw [hfree a, hfree b, hl' a, hl' b]

theorem edge_keys_iff (nm : NoiseModel) (gs : List OpType)
    (ch : NoiseModelCharacterisation)
    (h : _process_noise_model nm gs = .ok ch) :
    ∃ le, ch.edge_errors = some le ∧
      ∀ p : Node × Node, p ∈ mapKeys le ↔
        ∃ e ∈ keptErrors nm, ∃ pr, eArity2Target e = some pr ∧
          (p = pr ∨ p = (pr.2, pr.1)) := by
  obtain ⟨s, hs, hcoup, hedge⟩ := process_noise_model_ok_inv nm gs ch h
  obtain ⟨hq, hl, hc, hk⟩ := processErrors_ok_spec (keptErrors nm) initCharState s hs
  refine ⟨s.link_errors, hedge, fun p => ?_⟩
  rw [hk p]
  simp [initCharState, mapKeys]

theorem mem_couplingContribution (nm : NoiseModel) (pr : Node × Node) :
    pr ∈ couplingContribution nm ↔
      ∃ e ∈ keptErrors nm, eArity2Target e = some pr := by
  simp [couplingContribution, List.mem_filterMap]

theorem processError_bad (s : CharState) (e : AerError)
    (hbad : e.operations.length > 1 ∨ e.gate_qubits = none) :
    ∃ err, processError s e = .error err := by
  by_cases h1 : e.operations.length > 1
  · exact ⟨_, processError_multiOp s e h1⟩
  · rcases hbad with hb | hb
    · exact absurd hb h1
    · exact ⟨_, processError_noGateQubits s e h1 hb⟩

theorem processErrors_error_of_bad (es : List AerError) (e : AerError)
    (he : e ∈ es) (hbad : e.operations.length > 1 ∨ e.gate_qubits = none)
    (s : CharState) :
    ∃ err, processErrors es s = .error err := by
  induction es generalizing s with
  | nil => exact absurd he (List.not_mem_nil e)
  | cons e0 es ih =>
    unfold processErrors
    cases hp : processError s e0 with
    | error err => exact ⟨err, rfl⟩
    | ok s1 =>
      rcases List.mem_cons.mp he with rfl | he'
      · obtain ⟨err, herr⟩ := processError_bad s e hbad
        rw [hp] at herr
        exact Except.noConfusion herr
      · exact ih he' s1

/-- C2: for every noise model event that is a two-qubit quantum error on the
ordered pair `(q0, q1)` with first probability `f`, processing the event
records edge error `1 - f` for `(q0, q1)` and `1 - f * f` for the reverse pair
`(q1, q0)` under the same operation kind; and for the single two-qubit `cx`
error between qubits 0 and 1 with `f = 0.99`, the characterisation's averaged
edge errors are exactly `(0,1) = 0.01` and `(1,0) = 1 - 0.99 ^ 2 = 0.0199`. -/
theorem c2_two_qubit_edge_errors :
    (∀ (s : CharState) (e : AerError) (gq : List (List Node)) (q0 q1 : Node)
        (f : ℚ) (ps : List ℚ),
      ¬ e.operations.length > 1 → e.gate_qubits = some gq →
      gq.headD [] = [q0, q1] → e.probabilities = .qe (f :: ps) → q0 ≠ q1 →
      ∃ s1, processError s e = .ok s1 ∧
        lookup2 s1.link_errors (q0, q1)
          (_gate_str_2_optype (e.operations.headD "")) = some (1 - f) ∧
        lookup2 s1.link_errors (q1, q0)
          (_gate_str_2_optype (e.operations.headD "")) = some (1 - f * f)) ∧
    (_process_noise_model ⟨[cx01err]⟩ gs0).toOption.map
        (fun ch => ch.averaged_edge_errors)
      = some (some [((0, 1), 1/100), ((1, 0), 199/10000)]) := by
  constructor
  · intro s e gq q0 q1 f ps h1 h2 h3 h5 hne
    have hpair : ((q0 : Node), q1) ≠ (q1, q0) := fun hc => hne (congrArg Prod.fst hc)
    refine ⟨_, processError_arity2 s e gq q0 q1 f ps h1 h2 h3 h5, ?_, ?_⟩
    · dsimp only
      rw [lookup2_updateMap_other _ _ _ _ _ _ hpair]
      exact lookup2_updateMap_self _ _ _ _
    · dsimp only
      exact lookup2_updateMap_self _ _ _ _
  · simp only [_process_noise_model, keptErrors, processErrors, processError, cx01err, gs0,
      _gate_str_2_optype, gateFid, initCharState, sinsert, updateMap, updateInner, appendLog,
      setAssoc, freeCompletion, averagedMap, averageInner, averagedReadout, matEntry,
      List.filter, List.flatMap, List.map, List.mem_cons, List.length]
    norm_num
    exact ⟨_, rfl, rfl⟩

theorem c2_two_qubit_edge_errors_witness :
    ∃ s1, processError initCharState cx01err = .ok s1 ∧
      lookup2 s1.link_errors (0, 1) OpType.CX = some (1/100) ∧
      lookup2 s1.link_errors (1, 0) OpType.CX = some (199/10000) := by
  obtain ⟨s1, hok, ha, hb⟩ := c2_two_qubit_edge_errors.1 initCharState cx01err
    [[0, 1]] 0 1 (99/100) [1/100] (by decide) rfl rfl rfl (by decide)
  have hop : _gate_str_2_optype (cx01err.operations.headD "") = OpType.CX := by
    simp [cx01err, _gate_str_2_optype]
  rw [hop] at ha hb
  refine ⟨s1, hok, ?_, ?_⟩
  · rw [ha]
    norm_num
  · rw [hb]
    norm_num

/-- C3 counterexample: in the noise model with a single-qubit `u3` error on
qubit 5 and a three-qubit `ccx` error on `(0, 1, 2)`, qubit 0 appears in an
error event and in no two-qubit error event — by the claim it is free, so the
coupling list would have to contain the ordered pairs between 0 and the free
qubit 5 — yet the characterisation succeeds with an **empty** coupling list:
qubits of the silently skipped arity-3 event are never collected, so they are
not granted any connectivity. -/
theorem c3_free_qubit_counterexample :
    (∃ e ∈ (⟨[u3on5err, ccx012err]⟩ : NoiseModel).errors, (0 : Node) ∈ eTargets e) ∧
    (∀ e ∈ (⟨[u3on5err, ccx012err]⟩ : NoiseModel).errors, eArity2Target e = none) ∧
    (5 : Node) ≠ 0 ∧
    (_process_noise_model ⟨[u3on5err, ccx012err]⟩ gs0).toOption.map
        (fun ch => ch.architecture.coupling) = some [] := by
  refine ⟨?_, ?_, by decide, by rfl⟩
  · exact ⟨ccx012err, by simp [u3on5err, ccx012err], by decide⟩
  · intro e he
    rcases List.mem_cons.mp he with rfl | he'
    · rfl
    · rcases List.mem_cons.mp he' with rfl | he''
      · rfl
      · exact absurd he'' (List.not_mem_nil e)

/-- C3 (amended): a free qubit is one that appears in some **arity-1** error
event but in no two-qubit error event (qubits occurring only in skipped events
of other arities are not collected).  For every successfully characterised
noise model, every free qubit `f` and link-constrained qubit `l` contribute
both `(f, l)` and `(l, f)` to the coupling list, every ordered pair of
distinct free qubits is in the coupling list, and when no event is a two-qubit
event the coupling list is exactly the ordered pairs of distinct qubits
appearing in (arity-1) events. -/
theorem c3_free_qubit_completion (nm : NoiseModel) (gs : List OpType)
    (ch : NoiseModelCharacterisation)
    (h : _process_noise_model nm gs = .ok ch) :
    (∀ f l, isFreeQ nm f → appears2 (keptErrors nm) l →
      (f, l) ∈ ch.architecture.coupling ∧ (l, f) ∈ ch.architecture.coupling) ∧
    (∀ f g, isFreeQ nm f → isFreeQ nm g → f ≠ g →
      (f, g) ∈ ch.architecture.coupling) ∧
    ((∀ e ∈ keptErrors nm, eArity2Target e = none) →
      ∀ a b, ((a, b) ∈ ch.architecture.coupling ↔
        a ≠ b ∧ appears1 (keptErrors nm) a ∧ appears1 (keptErrors nm) b)) := by
  refine ⟨?_, ?_, ?_⟩
  · intro f l hf hl
    constructor
    · rw [coupling_mem_iff nm gs ch h]
      exact Or.inr (Or.inl ⟨hf, hl⟩)
    · rw [coupling_mem_iff nm gs ch h]
      exact Or.inr (Or.inr (Or.inl ⟨hf, hl⟩))
  · intro f g hf hg hne
    rw [coupling_mem_iff nm gs ch h]
    exact Or.inr (Or.inr (Or.inr ⟨hf, hg, fun hc => hne hc.symm⟩))
  · intro hno a b
    have hno2 : ∀ x, ¬ appears2 (keptErrors nm) x := by
      rintro x ⟨e, he, p, hp, _⟩
      rw [hno e he] at hp
      exact Option.noConfusion hp
    rw [coupling_mem_iff nm gs ch h]
    constructor
    · rintro (⟨e, he, hpr⟩ | ⟨hfa, hab⟩ | ⟨hfb, hba⟩ | ⟨hfa, hfb, hne⟩)
      · rw [hno e he] at hpr
        exact Option.noConfusion hpr
      · exact absurd hab (hno2 b)
      · exact absurd hba (hno2 a)
      · exact ⟨fun hc => hne hc.symm, hfa.1, hfb.1⟩
    · rintro ⟨hne, h1a, h1b⟩
      exact Or.inr (Or.inr (Or.inr ⟨⟨h1a, hno2 a⟩, ⟨h1b, hno2 b⟩,
        fun hc => hne hc.symm⟩))

theorem c3_free_qubit_completion_witness :
    ∃ ch, _process_noise_model ⟨[u3on5err, u3on7err]⟩ gs0 = .ok ch ∧
      (5, 7) ∈ ch.architecture.coupling ∧ (7, 5) ∈ ch.architecture.coupling ∧
      ¬ (5, 5) ∈ ch.architecture.coupling := by
  cases hch : _process_noise_model ⟨[u3on5err, u3on7err]⟩ gs0 with
  | error err =>
    have hok : (_process_noise_model ⟨[u3on5err, u3on7err]⟩ gs0).isOk = true := by rfl
    rw [hch] at hok
    exact Bool.noConfusion hok
  | ok ch =>
    obtain ⟨hfl, hff, hiff⟩ := c3_free_qubit_completion ⟨[u3on5err, u3on7err]⟩ gs0 ch hch
    have hiff' := hiff (by decide)
    refine ⟨ch, rfl, ?_, ?_, ?_⟩
    · exact hff 5 7 (by decide) (by decide) (by decide)
    · exact hff 7 5 (by decide) (by decide) (by decide)
    · intro hc
      exact absurd ((hiff' 5 5).mp hc).1 (by decide)

/-- C4 counterexample: the noise model consisting of one three-qubit `ccx`
quantum error is **not** rejected: characterisation succeeds (with an entirely
empty result), so unsupported arities are silently ignored rather than
failing. -/
theorem c4_arity_three_counterexample :
    (∃ e ∈ (⟨[ccx012err]⟩ : NoiseModel).errors, (eTargets e).length = 3) ∧
    _process_noise_model ⟨[ccx012err]⟩ gs0 =
      .ok { architecture := ⟨[]⟩
            node_errors := some []
            edge_errors := some []
            readout_errors := some []
            averaged_node_errors := some []
            averaged_edge_errors := some []
            averaged_readout_errors := some []
            generic_q_errors := some ⟨[], []⟩ } := by
  exact ⟨⟨ccx012err, by simp, by decide⟩, by rfl⟩

/-- C4 (amended): an error event whose explicit target-qubit sequence has
length other than 1 or 2 is silently skipped — processing it leaves the
characterisation state completely unchanged, and no error is raised (the
source's arity dispatch simply has no branch for it). -/
theorem c4_unsupported_arity_skipped (s : CharState) (e : AerError)
    (gq : List (List Node))
    (h1 : ¬ e.operations.length > 1) (h2 : e.gate_qubits = some gq)
    (h3 : (gq.headD []).length ≠ 1) (h4 : (gq.headD []).length ≠ 2) :
    processError s e = .ok s :=
  processError_otherArity s e gq h1 h2 h3 h4

theorem c4_unsupported_arity_skipped_witness :
    processError initCharState ccx012err = .ok initCharState :=
  c4_unsupported_arity_skipped initCharState ccx012err [[0, 1, 2]]
    (by decide) rfl (by decide) (by decide)

/-- C5: a noise-model event that names more than one operation, or that lacks
explicit `gate_qubits` (a global/all-qubit error), makes the characterisation
fail with a raised error: `_process_noise_model` returns `Except.error`, so the
failure is surfaced to the caller and no partial characterisation (in
particular no architecture) can be returned. -/
theorem c5_malformed_rejected (nm : NoiseModel) (gs : List OpType)
    (e : AerError) (he : e ∈ keptErrors nm)
    (hbad : e.operations.length > 1 ∨ e.gate_qubits = none) :
    ∃ err, _process_noise_model nm gs = .error err := by
  unfold _process_noise_model
  by_cases hcx : OpType.CX ∈ gs
  · rw [if_pos hcx]
    obtain ⟨err, herr⟩ := processErrors_error_of_bad (keptErrors nm) e he hbad
      initCharState
    rw [herr]
    exact ⟨err, rfl⟩
  · rw [if_neg hcx]
    exact ⟨.assertionFailed, rfl⟩

theorem c5_malformed_rejected_witness :
    (∃ err, _process_noise_model ⟨[multiOpErr]⟩ gs0 = .error err) ∧
    (∃ err, _process_noise_model ⟨[allQubitErr]⟩ gs0 = .error err) := by
  constructor
  · exact c5_malformed_rejected ⟨[multiOpErr]⟩ gs0 multiOpErr
      (by simp [keptErrors, multiOpErr]) (Or.inl (by decide))
  · exact c5_malformed_rejected ⟨[allQubitErr]⟩ gs0 allQubitErr
      (by simp [keptErrors, allQubitErr]) (Or.inr rfl)

/-- C6: a noise model that is absent, empty, or entirely trivial (every value
of its `to_dict()` is an empty list) is mapped to `None`, characterisation
then returns the characterisation with an empty architecture and every error
map absent (`none`), and the `AerBackend` constructor falls back to
`FullyConnected(n_qubits)` with the caller-supplied default qubit count. -/
theorem c6_trivial_noise_fallback (nm : Option NoiseModel) (gs : List OpType)
    (n : Nat) (h : nm = none ∨ ∃ m, nm = some m ∧ m.errors = []) :
    _get_characterisation_of_noise_model (_map_trivial_noise_model_to_none nm) gs
        = .ok { architecture := ⟨[]⟩ } ∧
    aerBackendArchitecture nm gs n = .ok (.fullyConnected n) := by
  have hmap : _map_trivial_noise_model_to_none nm = none := by
    rcases h with rfl | ⟨m, rfl, hm⟩
    · rfl
    · unfold _map_trivial_noise_model_to_none
      dsimp only
      rw [hm]
      rfl
  refine ⟨by rw [hmap]; rfl, ?_⟩
  unfold aerBackendArchitecture
  rw [hmap]
  rfl

theorem c6_trivial_noise_fallback_witness :
    (_get_characterisation_of_noise_model
        (_map_trivial_noise_model_to_none (some ⟨[]⟩)) gs0
      = .ok { architecture := ⟨[]⟩ }) ∧
    aerBackendArchitecture (some ⟨[]⟩) gs0 40 = .ok (.fullyConnected 40) :=
  c6_trivial_noise_fallback (some ⟨[]⟩) gs0 40 (Or.inr ⟨⟨[]⟩, rfl, rfl⟩)

/-- C7: requesting a result for a handle that has no cache entry (it was never
minted by a submission) fails with `CircuitNotRunError`, performs no external
`result()` fetch, leaves the cache unchanged, and returns no result — for
every external engine. -/
theorem c7_unknown_handle_not_run (engine : String → List BRes)
    (c : ResultCache) (h : ResultHandle) (hnone : cacheLookup c h = none) :
    get_result engine c h = (.error .circuitNotRun, c, 0) := by
  unfold get_result
  rw [hnone]

theorem c7_unknown_handle_not_run_witness :
    get_result engineJ [] hetHandle0 = (.error .circuitNotRun, [], 0) :=
  c7_unknown_handle_not_run engineJ [] hetHandle0 rfl

/-- C8: for every optimisation level 0..3, when the backend has an architecture
with a non-empty coupling list (`self._has_arch and arch.coupling`), the
default compilation pass sequence contains the LightSABRE routing/placement
stage built from that architecture strictly before its final stage, and that
final stage is a rebase / re-synthesis stage; when connectivity is
unconstrained the sequence contains no routing/placement stage at all. -/
theorem c8_routing_stage_selection (has_arch : Bool) (arch : Architecture)
    (optimisation_level timeout : Nat) (hlev : optimisation_level ≤ 3) :
    ((has_arch = true ∧ arch.coupling ≠ []) →
      ∃ pre post : List StageId, ∃ last : StageId,
        default_compilation_pass has_arch arch optimisation_level timeout
          = pre ++ [StageId.lightsabre arch] ++ post ++ [last] ∧
        isRebaseOrSynthStage last = true) ∧
    (¬ (has_arch = true ∧ arch.coupling ≠ []) →
      ∀ st ∈ default_compilation_pass has_arch arch optimisation_level timeout,
        isRoutingStage st = false) := by
  constructor
  · intro hc
    unfold default_compilation_pass
    rw [if_pos hc]
    unfold _arch_dependent_default_compilation_pass archSpecificPasses
    interval_cases optimisation_level
    · exact ⟨[.decomposeBoxes, .rebaseBackend, .autoRebaseCxTk1], [], .rebaseBackend, rfl, rfl⟩
    · exact ⟨[.decomposeBoxes, .synthesiseTket, .autoRebaseCxTk1], [], .synthesiseTket, rfl, rfl⟩
    · exact ⟨[.decomposeBoxes, .fullPeepholeOptimise, .autoRebaseCxTk1],
        [.cliffordSimp false], .synthesiseTket, rfl, rfl⟩
    · exact ⟨[.decomposeBoxes, .removeBarriers, .autoRebaseCxHRz,
        .greedyPauliSimp timeout, .autoRebaseCxTk1], [], .synthesiseTket, rfl, rfl⟩
  · intro hnc
    unfold default_compilation_pass
    rw [if_neg hnc]
    unfold _arch_independent_default_compilation_pass
    interval_cases optimisation_level <;>
      · intro st hst
        fin_cases hst <;> rfl

theorem c8_routing_stage_selection_witness :
    (∃ pre post : List StageId, ∃ last : StageId,
      default_compilation_pass true ⟨[(0, 1)]⟩ 2 300
        = pre ++ [StageId.lightsabre ⟨[(0, 1)]⟩] ++ post ++ [last] ∧
      isRebaseOrSynthStage last = true) ∧
    (∀ st ∈ default_compilation_pass false ⟨[(0, 1)]⟩ 2 300,
      isRoutingStage st = false) := by
  constructor
  · exact (c8_routing_stage_selection true ⟨[(0, 1)]⟩ 2 300 (by decide)).1
      ⟨rfl, by decide⟩
  · exact (c8_routing_stage_selection false ⟨[(0, 1)]⟩ 2 300 (by decide)).2
      (by simp)

/-- C9: a snapshot-based expectation-value query (Pauli or operator) under an
active noise model fails with the noise-model `RuntimeError` and submits no
job; on a backend without expectation support (and no noise model) it fails
with `NotImplementedError` and submits no job.  In both cases no expectation
value is computed. -/
theorem c9_expectation_guards (st : AerExpectationState) (runJob : Unit → ℚ) :
    (st.noise_model.isSome = true →
      get_pauli_expectation_value st runJob = (.error .noiseModelUnsupported, 0) ∧
      get_operator_expectation_value st runJob
        = (.error .noiseModelUnsupported, 0)) ∧
    (st.noise_model = none → st.supports_expectation = false →
      get_pauli_expectation_value st runJob = (.error .notImplemented, 0) ∧
      get_operator_expectation_value st runJob = (.error .notImplemented, 0)) := by
  constructor
  · intro hn
    unfold get_pauli_expectation_value get_operator_expectation_value
    rw [if_pos hn]
    exact ⟨rfl, rfl⟩
  · intro hn hs
    unfold get_pauli_expectation_value get_operator_expectation_value
    rw [hn, hs]
    exact ⟨rfl, rfl⟩

theorem c9_expectation_guards_witness :
    (get_pauli_expectation_value ⟨some ⟨[]⟩, true⟩ (fun _ => 0)
        = (.error .noiseModelUnsupported, 0) ∧
      get_operator_expectation_value ⟨some ⟨[]⟩, true⟩ (fun _ => 0)
        = (.error .noiseModelUnsupported, 0)) ∧
    (get_pauli_expectation_value ⟨none, false⟩ (fun _ => 0)
        = (.error .notImplemented, 0) ∧
      get_operator_expectation_value ⟨none, false⟩ (fun _ => 0)
        = (.error .notImplemented, 0)) :=
  ⟨(c9_expectation_guards ⟨some ⟨[]⟩, true⟩ (fun _ => 0)).1 rfl,
   (c9_expectation_guards ⟨none, false⟩ (fun _ => 0)).2 rfl rfl⟩

/-- C1 (code-bug evidence): for one job of two circuits with distinct qubit
counts 1 and 2 (reachable, since batching groups by shot count only), the two
minted handles carry their own qubit counts, but the demultiplexing loop of
`get_result` keys **every** position's cache write with the requested handle's
qubit count and postprocessing string.  The first retrieval therefore performs
the external fetch, fills only the entry whose key happens to match the
requested handle, and the write for position 1 misses every cache key: a
`KeyError` escapes and the sibling handle's entry is never populated —
contradicting the claim that one fetch populates the cache entry of every
handle minted for the job.  For a homogeneous job (both circuits with qubit
count 2) the claimed behaviour does hold: one fetch fills both entries and a
second retrieval is a pure cache hit with no further fetch, which shows the
heterogeneous failure is a slip rather than the intended design. -/
theorem c1_get_result_demux_bug :
    submitBatch "job0" [1, 2] ["null", "null"] [] =
      ([hetHandle0, hetHandle1],
        [(hetHandle0, { job := "job0" }), (hetHandle1, { job := "job0" })]) ∧
    get_result engineJ hetCache hetHandle0 =
      (.error .keyError,
        [(hetHandle0, { job := "job0", result := some 10 }),
         (hetHandle1, { job := "job0" })], 1) ∧
    get_result engineJ homCache homHandle0 =
      (.ok 10,
        [(homHandle0, { job := "job1", result := some 10 }),
         (homHandle1, { job := "job1", result := some 20 })], 1) ∧
    get_result engineJ (get_result engineJ homCache homHandle0).2.1 homHandle1 =
      (.ok 20,
        [(homHandle0, { job := "job1", result := some 10 }),
         (homHandle1, { job := "job1", result := some 20 })], 0) :=
  ⟨rfl, rfl, rfl, rfl⟩

/-- C10 (amended): for every successfully characterised noise model the
two-qubit error events contribute exactly their forward pairs (in event order)
to the coupling list — the reverse direction of each event receives an
edge-error entry but no coupling-list entry of its own.  Consequently the set
of directed edge-error keys contains the coupling contribution of those
errors, with **at least as many** distinct directed keys, and **strictly
more** whenever some event's reversed pair is not itself the forward pair of
any event (the original "always strictly more" fails when both directions
occur as explicit errors). -/
theorem c10_forward_only_coupling (nm : NoiseModel) (gs : List OpType)
    (ch : NoiseModelCharacterisation)
    (h : _process_noise_model nm gs = .ok ch) :
    ∃ le rest, ch.edge_errors = some le ∧
      ch.architecture.coupling = couplingContribution nm ++ rest ∧
      (∀ pr ∈ couplingContribution nm,
        pr ∈ mapKeys le ∧ (pr.2, pr.1) ∈ mapKeys le) ∧
      (couplingContribution nm).toFinset ⊆ (mapKeys le).toFinset ∧
      ((∃ pr ∈ couplingContribution nm,
          (pr.2, pr.1) ∉ couplingContribution nm) →
        (couplingContribution nm).toFinset.card < (mapKeys le).toFinset.card) := by
  obtain ⟨s, hs, hcoup, hedge⟩ := process_noise_model_ok_inv nm gs ch h
  obtain ⟨hq, hl, hc, hk⟩ := processErrors_ok_spec (keptErrors nm) initCharState s hs
  have hkeys : ∀ p : Node × Node, p ∈ mapKeys s.link_errors ↔
      p ∈ couplingContribution nm ∨ (p.2, p.1) ∈ couplingContribution nm := by
    intro p
    rw [hk p]
    simp only [initCharState, mapKeys, List.map_nil, List.not_mem_nil, false_or]
    constructor
    · rintro ⟨e, he, pr, hpr, (rfl | rfl)⟩
      · exact Or.inl ((mem_couplingContribution nm _).mpr ⟨e, he, hpr⟩)
      · refine Or.inr ((mem_couplingContribution nm _).mpr ⟨e, he, ?_⟩)
        simpa using hpr
    · rintro (hpC | hpC)
      · obtain ⟨e, he, hpr⟩ := (mem_couplingContribution nm p).mp hpC
        exact ⟨e, he, p, hpr, Or.inl rfl⟩
      · obtain ⟨e, he, hpr⟩ := (mem_couplingContribution nm (p.2, p.1)).mp hpC
        exact ⟨e, he, (p.2, p.1), hpr, Or.inr (by simp)⟩
  have hCsub : (couplingContribution nm).toFinset ⊆ (mapKeys s.link_errors).toFinset := by
    intro x hx
    rw [List.mem_toFinset] at hx ⊢
    exact (hkeys x).mpr (Or.inl hx)
  refine ⟨s.link_errors,
    freeCompletion
      (s.qubits_set.filter (fun q => decide (q ∉ s.qubits_with_link_errors)))
      s.qubits_with_link_errors,
    hedge, ?_, ?_, hCsub, ?_⟩
  · rw [hcoup, hc]
    simp [initCharState, couplingContribution]
  · intro pr hpr
    refine ⟨(hkeys pr).mpr (Or.inl hpr), (hkeys (pr.2, pr.1)).mpr (Or.inr ?_)⟩
    simpa using hpr
  · rintro ⟨pr, hprC, hrevC⟩
    refine Finset.card_lt_card ⟨hCsub, fun hKC => ?_⟩
    have hrevK : (pr.2, pr.1) ∈ (mapKeys s.link_errors).toFinset := by
      rw [List.mem_toFinset]
      refine (hkeys (pr.2, pr.1)).mpr (Or.inr ?_)
      simpa using hprC
    have := hKC hrevK
    rw [List.mem_toFinset] at this
    exact hrevC this

theorem c10_forward_only_coupling_witness :
    ∃ ch le rest, _process_noise_model ⟨[cx01err]⟩ gs0 = .ok ch ∧
      ch.edge_errors = some le ∧
      ch.architecture.coupling = couplingContribution ⟨[cx01err]⟩ ++ rest ∧
      (couplingContribution ⟨[cx01err]⟩).toFinset.card
        < (mapKeys le).toFinset.card := by
  cases hch : _process_noise_model ⟨[cx01err]⟩ gs0 with
  | error err =>
    have hok : (_process_noise_model ⟨[cx01err]⟩ gs0).isOk = true := by rfl
    rw [hch] at hok
    exact Bool.noConfusion hok
  | ok ch =>
    obtain ⟨le, rest, hle, hc, hmem, hsub, hcard⟩ :=
      c10_forward_only_coupling ⟨[cx01err]⟩ gs0 ch hch
    refine ⟨ch, le, rest, rfl, hle, hc, hcard ?_⟩
    refine ⟨(0, 1), ?_, ?_⟩
    · simp [couplingContribution, keptErrors, cx01err, eArity2Target, eTargets]
    · simp [couplingContribution, keptErrors, cx01err, eArity2Target, eTargets]

/-- C10 counterexample: when both directions occur as explicit two-qubit
errors — `cx` errors on `(0, 1)` and on `(1, 0)` — the edge-error map has
exactly the two directed keys `(0, 1)` and `(1, 0)`, and the coupling
contribution of those errors is exactly the same two directed pairs: the
edge-error map does **not** have strictly more directed keys than the coupling
contribution. -/
theorem c10_strictly_more_counterexample :
    (couplingContribution ⟨[cx01err9, cx10err9]⟩ ≠ []) ∧
    (couplingContribution ⟨[cx01err9, cx10err9]⟩).toFinset.card = 2 ∧
    (_process_noise_model ⟨[cx01err9, cx10err9]⟩ gs0).toOption.map
        (fun ch => ch.edge_errors.map (fun le => (mapKeys le).toFinset.card))
      = some (some 2) := by
  refine ⟨by decide, by decide, by rfl⟩
